import Mathlib

/-!
Shallow embedding of the `pydantic-htmx` repository core
(`src/pydantic_htmx/parser.py`, `form_data.py`, `validators.py`,
`templates.py`) together with a model of the parts of the external
schema/validation engine (pydantic v2) that the source calls.

Python runtime values flowing through the form pipeline are modelled by
the inductive `Value`; Python builtins called by the source (`int`,
`float`, `str`, `bool`, `date.fromisoformat`, `str.lower`, `str.title`)
are modelled by executable functions `pyInt`, `pyFloat`, `pyStr`, ...
-/

namespace PydanticHtmx

/-- Model of `datetime.date`: a calendar date as year/month/day numerals. -/
structure PyDate where
  year : Nat
  month : Nat
  day : Nat
deriving DecidableEq, Repr

/-- Model of the Python runtime values that flow through the form
pipeline: strings, ints, floats (as rationals), booleans, dates and
`None`. -/
inductive Value where
  | vStr (s : String)
  | vInt (n : Int)
  | vFloat (q : ℚ)
  | vBool (b : Bool)
  | vDate (d : PyDate)
  | vNone
deriving DecidableEq, Repr

/-- Gregorian leap-year rule, as used by `datetime.date`. -/
def isLeapYear (y : Nat) : Bool :=
  y % 4 == 0 && (y % 100 != 0 || y % 400 == 0)

/-- Number of days in a month, as used by `datetime.date`. -/
def daysInMonth (y m : Nat) : Nat :=
  if m == 2 then (if isLeapYear y then 29 else 28)
  else if m == 4 || m == 6 || m == 9 || m == 11 then 30
  else 31

/-- Numeric value of a list of decimal digit characters. -/
def digitsToNat (cs : List Char) : Nat :=
  cs.foldl (fun n c => 10 * n + (c.toNat - 48)) 0

/-- Whitespace characters stripped by Python numeric parsing. -/
def isPySpace (c : Char) : Bool :=
  c = ' ' || c = '\t' || c = '\n' || c = '\r' || c = Char.ofNat 11 || c = Char.ofNat 12

/-- Strip leading and trailing whitespace from a character list. -/
def stripChars (cs : List Char) : List Char :=
  ((cs.dropWhile isPySpace).reverse.dropWhile isPySpace).reverse

/-- Model of Python `int(s)` on a string: optional surrounding
whitespace, an optional sign, then one or more decimal digits
(the model omits underscore separators, which never occur in form data). -/
def parseIntStr (s : String) : Option Int :=
  match stripChars s.data with
  | [] => none
  | c :: cs =>
    let (sign, ds) : Int × List Char :=
      if c = '-' then (-1, cs) else if c = '+' then (1, cs) else (1, c :: cs)
    if ds ≠ [] ∧ ds.all Char.isDigit then some (sign * (digitsToNat ds : Int))
    else none

/-- Model of Python `float(s)` on a string: optional surrounding
whitespace, optional sign, a decimal mantissa (`digits`, `digits.`,
`digits.digits` or `.digits`) and an optional decimal exponent
(the model omits `inf`/`nan` forms, which never occur in form data). -/
def parseFloatStr (s : String) : Option ℚ :=
  match stripChars s.data with
  | [] => none
  | c :: cs =>
    let (sign, ds) : ℚ × List Char :=
      if c = '-' then (-1, cs) else if c = '+' then (1, cs) else (1, c :: cs)
    let (mant, rest) := ds.span (fun ch => ch.isDigit || ch = '.')
    let intPart := mant.takeWhile Char.isDigit
    let fracPart := (mant.drop intPart.length).drop 1
    let okMantissa :=
      mant = intPart ++ (if intPart.length < mant.length then '.' :: fracPart else []) ∧
      fracPart.all Char.isDigit ∧ (intPart ≠ [] ∨ fracPart ≠ [])
    let mantVal : ℚ :=
      (digitsToNat intPart : ℚ) + (digitsToNat fracPart : ℚ) / ((10 : ℚ) ^ fracPart.length)
    match rest with
    | [] => if okMantissa then some (sign * mantVal) else none
    | e :: es =>
      if (e = 'e' ∨ e = 'E') ∧ okMantissa then
        match es with
        | [] => none
        | d :: ds2 =>
          let (esign, eds) : Bool × List Char :=
            if d = '-' then (true, ds2) else if d = '+' then (false, ds2) else (false, d :: ds2)
          if eds ≠ [] ∧ eds.all Char.isDigit then
            let ex : ℚ := (10 : ℚ) ^ digitsToNat eds
            some (sign * mantVal * (if esign then ex⁻¹ else ex))
          else none
      else none

/-- Model of `date.fromisoformat`: a strict `YYYY-MM-DD` parse with
calendar validity checks (year 1..9999, valid month and day). -/
def dateFromIsoformat (s : String) : Option PyDate :=
  match s.data with
  | [y1, y2, y3, y4, h1, m1, m2, h2, d1, d2] =>
    if [y1, y2, y3, y4, m1, m2, d1, d2].all Char.isDigit ∧ h1 = '-' ∧ h2 = '-' then
      let y := digitsToNat [y1, y2, y3, y4]
      let m := digitsToNat [m1, m2]
      let d := digitsToNat [d1, d2]
      if 1 ≤ y ∧ 1 ≤ m ∧ m ≤ 12 ∧ 1 ≤ d ∧ d ≤ daysInMonth y m then
        some ⟨y, m, d⟩
      else none
    else none
  | _ => none

/-- Left-pad the decimal rendering of a numeral with zeros. -/
def padNat (width n : Nat) : String :=
  let s := toString n
  String.mk (List.replicate (width - s.length) '0') ++ s

/-- Rendering of a date by `str`, the ISO `YYYY-MM-DD` form. -/
def isoString (d : PyDate) : String :=
  padNat 4 d.year ++ "-" ++ padNat 2 d.month ++ "-" ++ padNat 2 d.day

/-- Truncation of a rational toward zero, as Python `int(float)`. -/
def ratTrunc (q : ℚ) : Int :=
  if 0 ≤ q then ⌊q⌋ else -⌊-q⌋

/-- Model of Python `repr`/`str` on a float value.  No claim depends on
the exact rendering; integral floats get a trailing `.0` as in Python. -/
def floatRepr (q : ℚ) : String :=
  if q.den = 1 then toString q.num ++ ".0" else toString q

/-- Model of Python `int(value)`: parses strings, truncates floats,
converts booleans, and raises `TypeError`/`ValueError` (modelled as
`none`) otherwise. -/
def pyInt : Value → Option Int
  | .vStr s => parseIntStr s
  | .vInt n => some n
  | .vFloat q => some (ratTrunc q)
  | .vBool b => some (if b then 1 else 0)
  | .vDate _ => none
  | .vNone => none

/-- Model of Python `float(value)`. -/
def pyFloat : Value → Option ℚ
  | .vStr s => parseFloatStr s
  | .vInt n => some (n : ℚ)
  | .vFloat q => some q
  | .vBool b => some (if b then 1 else 0)
  | .vDate _ => none
  | .vNone => none

/-- Model of Python `str(value)`. -/
def pyStr : Value → String
  | .vStr s => s
  | .vInt n => toString n
  | .vFloat q => floatRepr q
  | .vBool b => if b then "True" else "False"
  | .vDate d => isoString d
  | .vNone => "None"

/-- Model of Python truthiness `bool(value)` for the values of this
pipeline. -/
def pyTruthy : Value → Bool
  | .vStr s => s ≠ ""
  | .vInt n => n ≠ 0
  | .vFloat q => q ≠ 0
  | .vBool b => b
  | .vDate _ => true
  | .vNone => false

/-- Model of the Python test `value is None or value == ""` used by
`_convert_value` and `validate_field` (cross-type `==` is false). -/
def pyNoneOrEmpty : Value → Bool
  | .vNone => true
  | .vStr s => s == ""
  | _ => false

/-- Lookup in a Python dict modelled as an association list with unique
keys (`d.get(k)` / `d[k]` after a membership check). -/
def dictGet {α : Type} (m : List (String × α)) (k : String) : Option α :=
  (m.find? (fun p => p.1 == k)).map (fun p => p.2)

/-- Model of Python `str.lower` (ASCII case folding, which covers every
token the source compares against). -/
def pyLower (s : String) : String := s.toLower

/-- A single-character textual substitution: the semantics of Python
`str.replace` for the one-character patterns used by `_escape_html`
and by the `name.replace("_", " ")` title default. -/
def replaceChar (s : String) (c : Char) (r : String) : String :=
  String.mk (s.data.foldr (fun ch acc => if ch = c then r.data ++ acc else ch :: acc) [])

/-- Model of Python `str.title`: each alphabetic character is
upper-cased when the previous character is not alphabetic and
lower-cased otherwise. -/
def pyTitle (s : String) : String :=
  String.mk ((s.data.foldl
    (fun (acc : List Char × Bool) c =>
      if c.isAlpha then
        ((if acc.2 then c.toLower else c.toUpper) :: acc.1, true)
      else (c :: acc.1, false))
    ([], false)).1.reverse)

/-! ## `field_types.py` / `parser.py`: field kinds and model introspection -/

/-- Port of `parser.FieldType` (the `CHECKBOX` member is what a plain
`bool` annotation resolves to; `BOOLEAN` is declared but never produced
by `_detect_field_type`). -/
inductive FieldType where
  | STRING | INTEGER | FLOAT | BOOLEAN | DATE | SELECT | CHECKBOX
deriving DecidableEq, Repr

/-- Port of `field_types.SelectOption`: a `(value, label)` pair. -/
structure SelectOption where
  value : String
  label : String
deriving DecidableEq, Repr

/-- Port of the `SelectOption.__init__` defaulting: the label defaults
to the value when not given. -/
def SelectOption.make (value : String) (label : Option String) : SelectOption :=
  ⟨value, label.getD value⟩

/-- Literal values admitted inside `typing.Literal[...]` annotations in
this pipeline (strings or ints). -/
inductive Lit where
  | ls (s : String)
  | li (n : Int)
deriving DecidableEq, Repr

/-- Python `str(arg)` on a literal value. -/
def litStr : Lit → String
  | .ls s => s
  | .li n => toString n

/-- The literal value itself as a runtime `Value`. -/
def litValue : Lit → Value
  | .ls s => .vStr s
  | .li n => .vInt n

/-- Model of the type expressions that can appear as a pydantic field
annotation in this pipeline: base types, `type(None)`, `Literal[...]`,
the synthesized `Select(...)` marker type (which carries
`_select_field`/`_options` attributes), unions (`T | None`,
`Union[...]`), `Annotated[T, ...]` wrappers, and any other
unrecognized type. -/
inductive Ann where
  | str | int | float | bool | date
  | noneType
  | lit (vals : List Lit)
  | select (options : List SelectOption)
  | union (args : List Ann)
  | annotated (inner : Ann)
  | other
deriving Repr

/-- Identity test against `type(None)` (`a is not type(None)`). -/
def Ann.isNoneType : Ann → Bool
  | .noneType => true
  | _ => false

/-- The one-layer `Annotated` unwrap at the top of
`_detect_field_type` / `_extract_options` (`get_args(annotation)[0]`
when `get_origin(annotation) is Annotated`). -/
def unwrapAnnotated : Ann → Ann
  | .annotated inner => inner
  | a => a

/-- The union unwrap of `_detect_field_type` / `_get_dummy_value`:
for a union, keep the first argument that is not `type(None)`; when
every argument is `type(None)` the annotation is left unchanged. -/
def unwrapUnion : Ann → Ann
  | .union args =>
    match args.filter (fun a => !a.isNoneType) with
    | [] => .union args
    | b :: _ => b
  | a => a

/-- The classification chain at the end of
`ModelParser._detect_field_type`: `Literal` and `_select_field`/
`_options` markers yield `SELECT`, base types map to their kinds, and
anything unrecognized falls to `STRING`.  The `annotated (select _)`
case mirrors CPython attribute delegation: `hasattr(Annotated[X, m],
"_options")` forwards to `X`, so an `Annotated` select marker surviving
inside a union still classifies as `SELECT`, while every other
`Annotated` residue falls to the `STRING` default (the
`annotation is bool/int/...` identity tests fail on an alias). -/
def finalClassify : Ann → FieldType
  | .lit _ => .SELECT
  | .select _ => .SELECT
  | .annotated (.select _) => .SELECT
  | .bool => .CHECKBOX
  | .int => .INTEGER
  | .float => .FLOAT
  | .date => .DATE
  | .str => .STRING
  | _ => .STRING

/-- Port of `ModelParser._detect_field_type`: unwrap one `Annotated`
layer, unwrap a union to its first non-`None` argument, then run the
classification chain. -/
def detectFieldType (a : Ann) : FieldType :=
  finalClassify (unwrapUnion (unwrapAnnotated a))

/-- Port of `ModelParser._extract_options`: unwrap one `Annotated`
layer; a `Select(...)` marker's `_options` win, then a `Literal`
yields one option per literal with `value == label == str(arg)`. -/
def extractOptions (a : Ann) : List SelectOption :=
  match unwrapAnnotated a with
  | .select opts => opts
  | .lit vals => vals.map (fun v => SelectOption.make (litStr v) (some (litStr v)))
  | _ => []

/-- Model of one pydantic constraint-metadata object
(`annotated_types.Ge`, `MinLen`, ...): each marker exposes exactly the
attributes that are set (`hasattr(meta, "ge")` iff `ge` is set). -/
structure Meta where
  min_length : Option Int := none
  max_length : Option Int := none
  ge : Option ℚ := none
  le : Option ℚ := none
  gt : Option ℚ := none
  lt : Option ℚ := none
  pattern : Option String := none
deriving DecidableEq, Repr

/-- The constraint dictionary accumulated by
`ModelParser._extract_constraints`. -/
structure Constraints where
  min_length : Option Int := none
  max_length : Option Int := none
  ge : Option ℚ := none
  le : Option ℚ := none
  gt : Option ℚ := none
  lt : Option ℚ := none
  pattern : Option String := none
deriving DecidableEq, Repr

/-- Port of `ModelParser._extract_constraints`: walk the metadata list,
later markers overwriting earlier ones per attribute. -/
def extractConstraints (metadata : List Meta) : Constraints :=
  metadata.foldl
    (fun c m =>
      { min_length := m.min_length <|> c.min_length
        max_length := m.max_length <|> c.max_length
        ge := m.ge <|> c.ge
        le := m.le <|> c.le
        gt := m.gt <|> c.gt
        lt := m.lt <|> c.lt
        pattern := m.pattern <|> c.pattern })
    {}

/-- Model of pydantic v2 `FieldInfo`, restricted to what the source
reads: the annotation, the declared default (`none` models
`PydanticUndefined`, i.e. no default declared; the repository never
uses `default_factory`), title, description, constraint metadata and
the free-form `json_schema_extra` payload. -/
structure FieldInfo where
  annot : Ann
  default : Option Value := none
  title : Option String := none
  description : Option String := none
  metadata : List Meta := []
  json_schema_extra : Option (List (String × Value)) := none

/-- Model of pydantic v2 `FieldInfo.is_required()`: a field is required
iff it declares no default (the repository never sets
`default_factory`; nullability of the annotation plays no role). -/
def FieldInfo.isRequired (fi : FieldInfo) : Bool := fi.default.isNone

/-- Port of `parser.ParsedField` after `__init__` ran: the title
defaults to the titleized name when absent or empty, `options` default
to the empty list. -/
structure ParsedField where
  name : String
  field_type : FieldType
  required : Bool
  title : String
  description : Option String
  default : Value
  min_length : Option Int
  max_length : Option Int
  ge : Option ℚ
  le : Option ℚ
  gt : Option ℚ
  lt : Option ℚ
  pattern : Option String
  options : List SelectOption
  placeholder : Option String

/-- Port of `ModelParser._extract_placeholder`: read the
`"placeholder"` key of `json_schema_extra` when it is a string dict. -/
def extractPlaceholder (fi : FieldInfo) : Option String :=
  match fi.json_schema_extra with
  | some extra =>
    match dictGet extra "placeholder" with
    | some (.vStr s) => some s
    | _ => none
  | none => none

/-- Port of `ModelParser._parse_field` combined with
`ParsedField.__init__`: detect the kind, take `required` from the
engine's `is_required()`, extract constraints/options/placeholder, keep
the declared default only for non-required fields, and default the
title to `name.replace("_", " ").title()` when the engine supplies no
(non-empty) title. -/
def parseField (name : String) (fi : FieldInfo) : ParsedField :=
  let c := extractConstraints fi.metadata
  { name := name
    field_type := detectFieldType fi.annot
    required := fi.isRequired
    title :=
      match fi.title with
      | some t => if t = "" then pyTitle (replaceChar name '_' " ") else t
      | none => pyTitle (replaceChar name '_' " ")
    description := fi.description
    default := if fi.isRequired then .vNone else fi.default.getD (.vStr "PydanticUndefined")
    min_length := c.min_length
    max_length := c.max_length
    ge := c.ge
    le := c.le
    gt := c.gt
    lt := c.lt
    pattern := c.pattern
    options := extractOptions fi.annot
    placeholder := extractPlaceholder fi }

/-- Port of `ModelParser.parse`: one `ParsedField` per declared field,
in declaration order (`model.model_fields` is an insertion-ordered dict
with unique keys). -/
def modelParse (mfields : List (String × FieldInfo)) : List ParsedField :=
  mfields.map (fun p => parseField p.1 p.2)

/-- The `{f.name: f for f in ModelParser.parse(model)}` dict built by
`FormDataParser.__init__`. -/
def fieldsDict (mfields : List (String × FieldInfo)) : List (String × ParsedField) :=
  (modelParse mfields).map (fun pf => (pf.name, pf))

/-! ## `form_data.py`: the form-data converter -/

/-- The tuple of truthy checkbox tokens in `_convert_value`. -/
def truthyTokens : List String := ["on", "true", "1", "yes", "checked"]

/-- Port of `FormDataParser._convert_value`.  The whole conversion sits
inside `try/except (ValueError, TypeError)`, so a failing `int`/`float`/
`date.fromisoformat` parse (modelled by the `none` branches of
`pyInt`/`pyFloat`/`dateFromIsoformat`) returns the raw value unchanged;
the function is total, matching the source's never-raises contract. -/
def convertValue (value : Value) (pf : ParsedField) : Value :=
  if pyNoneOrEmpty value then
    if !pf.required then .vNone else value
  else
    match pf.field_type with
    | .INTEGER =>
      match pyInt value with
      | some n => .vInt n
      | none => value
    | .FLOAT =>
      match pyFloat value with
      | some q => .vFloat q
      | none => value
    | .CHECKBOX | .BOOLEAN =>
      match value with
      | .vBool b => .vBool b
      | .vStr s => .vBool (truthyTokens.contains (pyLower s))
      | v => .vBool (pyTruthy v)
    | .DATE =>
      match value with
      | .vDate d => .vDate d
      | .vStr s =>
        match dateFromIsoformat s with
        | some d => .vDate d
        | none => value
      | _ => value
    | .SELECT => .vStr (pyStr value)
    | .STRING => .vStr (pyStr value)

/-- Port of `FormDataParser._convert_form_data`: walk the field dict in
order; an absent checkbox becomes `False`, any other absent field is
skipped, a present field is converted by `_convert_value`. -/
def convertFormData (fields : List (String × ParsedField)) (form : List (String × Value)) :
    List (String × Value) :=
  match fields with
  | [] => []
  | (fname, pf) :: rest =>
    match dictGet form fname with
    | none =>
      if pf.field_type = .CHECKBOX then (fname, .vBool false) :: convertFormData rest form
      else convertFormData rest form
    | some v => (fname, convertValue v pf) :: convertFormData rest form

/-! ## `validators.py` and the HTML escaping of `templates.py` -/

/-- Port of `validators.ValidationResult` (the spec's
`ValidationOutcome`). -/
structure ValidationResult where
  is_valid : Bool
  error_message : Option String
deriving DecidableEq, Repr

/-- Port of `_escape_html` (identical static method in
`templates.TemplateRenderer` and `validators.ValidationResult`): the
five chained substitutions, ampersand first. -/
def escapeHtml (text : String) : String :=
  replaceChar
    (replaceChar
      (replaceChar
        (replaceChar
          (replaceChar text '&' "&amp;")
          '<' "&lt;")
        '>' "&gt;")
      (Char.ofNat 34) "&quot;")
    (Char.ofNat 39) "&#x27;"

/-- Port of `ValidationResult.to_html`: empty on success or when the
message is absent/empty (Python falsiness), otherwise an escaped
`<span>`. -/
def ValidationResult.toHtml (r : ValidationResult) : String :=
  if r.is_valid then ""
  else
    match r.error_message with
    | none => ""
    | some m => if m = "" then "" else "<span class=\"error\">" ++ escapeHtml m ++ "</span>"

/-- Model of one entry of pydantic's `ValidationError.errors()`: the
error-kind code, the field-location path (the source only reads
`str(loc[0])`, so locations are kept as strings), the raw message and
the context map (stored with values already rendered to the strings
the f-string templates interpolate). -/
structure PyError where
  type : String
  loc : List String
  msg : Option String
  ctx : List (String × String)

/-- Lookup in the error context with `""` default, the
`error.get("ctx", {}).get(key, "")` pattern of `_translate_error`. -/
def ctxGet (e : PyError) (k : String) : String :=
  (dictGet e.ctx k).getD ""

/-- Port of `HTMXValidator._translate_error`: the fixed
code-to-Japanese-message table, bound-parameterized for the range
errors, falling back to the engine's raw message. -/
def translateError (e : PyError) : String :=
  let t := e.type
  if t = "string_too_short" then "この値は短すぎます"
  else if t = "string_too_long" then "この値は長すぎます"
  else if t = "value_error" then "値が無効です"
  else if t = "type_error" then "型が正しくありません"
  else if t = "missing" then "このフィールドは必須です"
  else if t = "int_parsing" then "整数を入力してください"
  else if t = "float_parsing" then "数値を入力してください"
  else if t = "bool_parsing" then "真偽値を入力してください"
  else if t = "date_parsing" then "有効な日付を入力してください"
  else if t = "string_pattern_mismatch" then "パターンに一致しません"
  else if t = "greater_than_equal" then "この値は" ++ ctxGet e "ge" ++ "以上である必要があります"
  else if t = "less_than_equal" then "この値は" ++ ctxGet e "le" ++ "以下である必要があります"
  else if t = "greater_than" then "この値は" ++ ctxGet e "gt" ++ "より大きい必要があります"
  else if t = "less_than" then "この値は" ++ ctxGet e "lt" ++ "より小さい必要があります"
  else e.msg.getD "入力エラーです"

/-- Model of a pydantic model class as the validator sees it: the
ordered `model_fields` dict and the engine's whole-instance
`model_validate` entry point, returning `none` on success and the
`ValidationError.errors()` list when validation raises.  Whole-model
(cross-field) rules live inside `validateModel`. -/
structure PyModel where
  fields : List (String × FieldInfo)
  validateModel : List (String × Value) → Option (List PyError)

/-- Port of `HTMXValidator._get_dummy_value`: unwrap a union to its
first non-`None` argument, use the first value of a `Literal`,
otherwise map base types to fixed dummies with `"dummy"` as the
fallback; `today` models the `date.today()` call. -/
def getDummyValue (today : PyDate) (fi : FieldInfo) : Value :=
  match unwrapUnion fi.annot with
  | .lit (v :: _) => litValue v
  | .str => .vStr "dummy"
  | .int => .vInt 0
  | .float => .vFloat 0
  | .bool => .vBool false
  | .date => .vDate today
  | _ => .vStr "dummy"

/-- The `validation_data` dict built inside
`HTMXValidator.validate_field`: keep each submitted non-empty value,
and synthesize a dummy for every other required field. -/
def buildValidationData (M : PyModel) (today : PyDate) (data : List (String × Value)) :
    List (String × Value) :=
  M.fields.foldl
    (fun acc p =>
      match dictGet data p.1 with
      | some v =>
        if !pyNoneOrEmpty v then acc ++ [(p.1, v)]
        else if p.2.isRequired then acc ++ [(p.1, getDummyValue today p.2)] else acc
      | none =>
        if p.2.isRequired then acc ++ [(p.1, getDummyValue today p.2)] else acc)
    []

/-- Port of `HTMXValidator.validate_field`: unknown fields get a
distinct invalid outcome; an empty/missing value is invalid when the
field is required and valid otherwise; a present value triggers
whole-model validation on the dummy-completed data, keeping only the
first error located at the target field. -/
def validateField (M : PyModel) (today : PyDate) (field_name : String)
    (data : List (String × Value)) : ValidationResult :=
  match M.fields.find? (fun p => p.1 == field_name) with
  | none => ⟨false, some ("不明なフィールド: " ++ field_name)⟩
  | some p =>
    let value := (dictGet data field_name).getD .vNone
    if p.2.isRequired && pyNoneOrEmpty value then
      ⟨false, some "このフィールドは必須です"⟩
    else if !p.2.isRequired && pyNoneOrEmpty value then
      ⟨true, none⟩
    else
      match M.validateModel (buildValidationData M today data) with
      | none => ⟨true, none⟩
      | some errors =>
        match errors.find? (fun e => e.loc.head? == some field_name) with
        | some e => ⟨false, some (translateError e)⟩
        | none => ⟨true, none⟩

/-- Port of `HTMXValidator.validate_all`: one per-field outcome per
declared field. -/
def validateAll (M : PyModel) (today : PyDate) (data : List (String × Value)) :
    List (String × ValidationResult) :=
  M.fields.map (fun p => (p.1, validateField M today p.1 data))

/-- Port of `HTMXValidator.validate_and_parse`: when every per-field
outcome is valid, run full-model validation (the only place cross-field
rules are evaluated); the parsed instance is modelled by the accepted
data mapping. -/
def validateAndParse (M : PyModel) (today : PyDate) (data : List (String × Value)) :
    Option (List (String × Value)) × List (String × ValidationResult) :=
  let results := validateAll M today data
  if results.all (fun r => r.2.is_valid) then
    match M.validateModel data with
    | none => (some data, results)
    | some _ => (none, results)
  else (none, results)

/-- Port of `HTMXValidator.generate_error_response`: a `<li>` per
invalid outcome, inserted with NO escaping (Python renders a `None`
message as `"None"`), or a success banner when every outcome is
valid. -/
def generateErrorResponse (results : List (String × ValidationResult)) : String :=
  let errors := results.filterMap
    (fun p =>
      if p.2.is_valid then none
      else some ("<li>" ++ p.1 ++ ": " ++ (p.2.error_message.getD "None") ++ "</li>"))
  if errors.isEmpty then
    "<div class=\"success\">入力内容に問題はありません</div>"
  else
    "<div class=\"errors\"><ul>" ++ String.join errors ++ "</ul></div>"

/-! ## Derived notions used to state the claims -/

/-- The date interpretation performed by the `DATE` branch of
`_convert_value`: an actual date passes through, a string goes through
`date.fromisoformat`, anything else has no date reading. -/
def pyDateParse : Value → Option PyDate
  | .vDate d => some d
  | .vStr s => dateFromIsoformat s
  | _ => none

/-- Formalization of the spec's "nullable": after removing a metadata
wrapper, the type is a union having `None` among its alternatives. -/
def isNullable (a : Ann) : Bool :=
  match unwrapAnnotated a with
  | .union args => args.any (fun x => x.isNoneType)
  | _ => false

/-- An atomic (wrapper-free, recognized) type expression: a base type,
a `Literal`, or a `Select(...)` marker. -/
def isAtom : Ann → Bool
  | .str | .int | .float | .bool | .date | .lit _ | .select _ => true
  | _ => false

/-- A type expression supported without its optional metadata wrapper:
an atom, or a union of atoms and `None`. -/
def isSupportedCore (a : Ann) : Bool :=
  isAtom a ||
    (match a with
     | .union args => args.all (fun x => isAtom x || x.isNoneType)
     | _ => false)

/-- The supported type expressions of the field-kind resolver, per the
spec's contract: an atom, possibly wrapped in an optional
(union-with-`None`) wrapper, possibly wrapped in an outermost
annotated-with-metadata wrapper; anything else is an unrecognized type
that the resolver merely defaults to `STRING`. -/
def isSupportedAnn : Ann → Bool
  | .annotated inner => isSupportedCore inner
  | a => isSupportedCore a

/-- The canonical (fully unwrapped) form of a type expression: drop a
metadata wrapper, then reduce a nullable union to its payload. -/
def canonicalType (a : Ann) : Ann :=
  unwrapUnion (unwrapAnnotated a)

/-! ## Concrete schema instances used by witnesses and counterexamples -/

/-- A plain required `int` field (`age: int`). -/
def fiAge : FieldInfo := { annot := .int }

/-- An optional boolean field (`newsletter: bool | None = None`). -/
def fiNewsletter : FieldInfo := { annot := .union [.bool, .noneType], default := some .vNone }

/-- A nullable string field with no default (`nickname: str | None`). -/
def fiNickname : FieldInfo := { annot := .union [.str, .noneType] }

/-- The literal values of the spec's Scenario D status field. -/
def statusLits : List Lit := [.ls "active", .ls "inactive", .ls "pending"]

/-- A `Literal["active", "inactive", "pending"]` field. -/
def fiStatus : FieldInfo := { annot := .lit statusLits }

/-- A plain required `str` field. -/
def fiStr : FieldInfo := { annot := .str }

/-- A one-field model (`name: str`) for the unknown-field scenario; its
whole-model validation accepts everything. -/
def mUser : PyModel := { fields := [("name", fiStr)], validateModel := fun _ => none }

/-- Engine behaviour of the spec's Scenario E model: both fields are
strings, and a whole-model rule - located at the model root, loc `()` -
requires `password == password_confirm`. -/
def pwValidateModel (data : List (String × Value)) : Option (List PyError) :=
  match dictGet data "password", dictGet data "password_confirm" with
  | some (.vStr p), some (.vStr c) =>
    if p = c then none
    else some [{ type := "value_error", loc := [], msg := some "passwords do not match", ctx := [] }]
  | _, _ => some [{ type := "missing", loc := ["password"], msg := some "Field required", ctx := [] }]

/-- The Scenario E model: `password: str`, `password_confirm: str`,
plus the cross-field equality rule. -/
def pwModel : PyModel :=
  { fields := [("password", fiStr), ("password_confirm", fiStr)]
    validateModel := pwValidateModel }

/-- A submission with mismatched passwords: each field on its own is a
present, non-empty, well-typed string. -/
def pwData : List (String × Value) :=
  [("password", .vStr "secret1"), ("password_confirm", .vStr "secret2")]

/-- A fixed stand-in for `date.today()`. -/
def today0 : PyDate := ⟨2024, 1, 1⟩

/-! ## Basic lemmas about the embedding -/

theorem dictGet_nil {α : Type} (k : String) : dictGet ([] : List (String × α)) k = none := rfl

theorem dictGet_cons {α : Type} (k k' : String) (v : α) (rest : List (String × α)) :
    dictGet ((k, v) :: rest) k' = if k = k' then some v else dictGet rest k' := by
  by_cases h : k = k' <;> simp [dictGet, List.find?_cons, h]

theorem find?_key_eq_none {α : Type} {m : List (String × α)} {k : String}
    (h : k ∉ m.map Prod.fst) : m.find? (fun p => p.1 == k) = none := by
  rw [List.find?_eq_none]
  intro p hp hbeq
  exact h (beq_iff_eq.mp hbeq ▸ List.mem_map_of_mem Prod.fst hp)

theorem dictGet_eq_none_of_not_mem {α : Type} {m : List (String × α)} {k : String}
    (h : k ∉ m.map Prod.fst) : dictGet m k = none := by
  rw [dictGet, find?_key_eq_none h]; rfl

theorem parseField_name (n : String) (fi : FieldInfo) : (parseField n fi).name = n := rfl

theorem parseField_field_type (n : String) (fi : FieldInfo) :
    (parseField n fi).field_type = detectFieldType fi.annot := rfl

theorem parseField_required (n : String) (fi : FieldInfo) :
    (parseField n fi).required = fi.isRequired := rfl

theorem fieldsDict_eq (mfields : List (String × FieldInfo)) :
    fieldsDict mfields = mfields.map (fun p => (p.1, parseField p.1 p.2)) := by
  simp [fieldsDict, modelParse, List.map_map, Function.comp_def, parseField_name]

theorem fieldsDict_keys (mfields : List (String × FieldInfo)) :
    (fieldsDict mfields).map Prod.fst = mfields.map Prod.fst := by
  simp [fieldsDict_eq, List.map_map, Function.comp_def]

/-- Keys of the converter's output come from the field dict: a skipped
field contributes nothing, any other field contributes its own name. -/
theorem convertFormData_keys_mem {fields : List (String × ParsedField)}
    {form : List (String × Value)} {k : String}
    (h : k ∈ (convertFormData fields form).map Prod.fst) : k ∈ fields.map Prod.fst := by
  induction fields with
  | nil => simp [convertFormData] at h
  | cons hd tl ih =>
    obtain ⟨fname, pf⟩ := hd
    simp only [convertFormData] at h
    rcases hf : dictGet form fname with _ | v <;> rw [hf] at h
    · by_cases hcb : pf.field_type = .CHECKBOX
      · rw [if_pos hcb] at h
        simp only [List.map_cons, List.mem_cons] at h
        rcases h with h | h
        · simp [h]
        · exact List.mem_cons_of_mem _ (ih h)
      · rw [if_neg hcb] at h
        exact List.mem_cons_of_mem _ (ih h)
    · simp only [List.map_cons, List.mem_cons] at h
      rcases h with h | h
      · simp [h]
      · exact List.mem_cons_of_mem _ (ih h)

/-- The converter's output at a declared field, assuming the unique
keys of a Python dict: absent checkbox fields read `False`, other
absent fields read nothing, present fields read the converted value. -/
theorem dictGet_convertFormData (form : List (String × Value))
    {fields : List (String × ParsedField)} {fname : String} {pf : ParsedField}
    (hnodup : (fields.map Prod.fst).Nodup) (hmem : (fname, pf) ∈ fields) :
    dictGet (convertFormData fields form) fname =
      match dictGet form fname with
      | none => if pf.field_type = .CHECKBOX then some (.vBool false) else none
      | some v => some (convertValue v pf) := by
  induction fields with
  | nil => simp at hmem
  | cons hd tl ih =>
    obtain ⟨gname, qf⟩ := hd
    simp only [List.map_cons, List.nodup_cons] at hnodup
    rcases List.mem_cons.mp hmem with heq | hmem'
    · obtain ⟨rfl, rfl⟩ := Prod.mk.injEq .. ▸ heq
      have hnot : dictGet (convertFormData tl form) fname = none :=
        dictGet_eq_none_of_not_mem (fun hk => hnodup.1 (convertFormData_keys_mem hk))
      simp only [convertFormData]
      rcases hf : dictGet form fname with _ | v
      · by_cases hcb : pf.field_type = .CHECKBOX
        · simp [hcb, dictGet_cons]
        · simp [hcb, hnot]
      · simp [dictGet_cons]
    · have hne : gname ≠ fname := by
        intro he
        exact hnodup.1 (he ▸ List.mem_map_of_mem Prod.fst hmem')
      simp only [convertFormData]
      rcases hf : dictGet form gname with _ | v
      · by_cases hcb : qf.field_type = .CHECKBOX
        · simp only [if_pos hcb, dictGet_cons, if_neg hne]
          exact ih hnodup.2 hmem'
        · simp only [if_neg hcb]
          exact ih hnodup.2 hmem'
      · simp only [dictGet_cons, if_neg hne]
        exact ih hnodup.2 hmem'

/-! ## Structural lemmas about the field-kind resolver -/

theorem unwrapAnnotated_atom {b : Ann} (hb : isAtom b = true) : unwrapAnnotated b = b := by
  cases b <;> first | rfl | simp [isAtom] at hb

theorem unwrapUnion_atom {b : Ann} (hb : isAtom b = true) : unwrapUnion b = b := by
  cases b <;> first | rfl | simp [isAtom] at hb

/-- The head of the non-`None` filter of a supported union is an atom. -/
theorem isAtom_of_filter_head {args : List Ann} {b : Ann} {bs : List Ann}
    (hall : args.all (fun x => isAtom x || x.isNoneType) = true)
    (hf : args.filter (fun x => !x.isNoneType) = b :: bs) : isAtom b = true := by
  have hmem : b ∈ args.filter (fun x => !x.isNoneType) := by
    rw [hf]; exact List.mem_cons_self b bs
  obtain ⟨hbargs, hbpred⟩ := List.mem_filter.mp hmem
  rcases Bool.or_eq_true _ _ |>.mp (List.all_eq_true.mp hall b hbargs) with h | h
  · exact h
  · rw [h] at hbpred; simp at hbpred

/-- Canonicalizing a supported type expression yields a fixed point of
both unwrap steps. -/
theorem canonicalType_stable {a : Ann} (h : isSupportedAnn a = true) :
    unwrapAnnotated (canonicalType a) = canonicalType a ∧
    unwrapUnion (canonicalType a) = canonicalType a := by
  have core : ∀ c : Ann, isSupportedCore c = true →
      unwrapAnnotated (unwrapUnion c) = unwrapUnion c ∧
      unwrapUnion (unwrapUnion c) = unwrapUnion c := by
    intro c hc
    rcases Bool.or_eq_true _ _ |>.mp hc with hatom | hunion
    · rw [unwrapUnion_atom hatom]
      exact ⟨unwrapAnnotated_atom hatom, unwrapUnion_atom hatom⟩
    · match c, hunion with
      | .union args, hall =>
        rcases hf : args.filter (fun x => !x.isNoneType) with _ | ⟨b, bs⟩
        · simp only [unwrapUnion, hf]
          exact ⟨rfl, by simp only [unwrapUnion, hf]⟩
        · have hb := isAtom_of_filter_head hall hf
          simp only [unwrapUnion, hf]
          exact ⟨unwrapAnnotated_atom hb, unwrapUnion_atom hb⟩
  match a, h with
  | .annotated inner, hinner => exact core inner hinner
  | .str, h | .int, h | .float, h | .bool, h | .date, h | .noneType, h | .lit _, h
  | .select _, h | .union _, h | .other, h =>
    exact core _ h

/-- Membership of a parsed field in the converter's field dict. -/
theorem mem_fieldsDict {mfields : List (String × FieldInfo)} {fname : String} {fi : FieldInfo}
    (hmem : (fname, fi) ∈ mfields) :
    (fname, parseField fname fi) ∈ fieldsDict mfields := by
  rw [fieldsDict_eq]
  exact List.mem_map_of_mem (fun p => (p.1, parseField p.1 p.2)) hmem

/-! ## The claims -/

/-- Claim C1: `validate_field` reports only errors located at the
target field.  When the target value is present and non-empty and every
error of whole-model validation on the dummy-completed data sits
elsewhere (e.g. a cross-field rule reported at the model root), the
outcome is valid; and whenever full-model validation of the same data
fails, `validate_and_parse` returns `(none, outcomes)`. -/
theorem claim_C1 (M : PyModel) (today : PyDate) (field_name : String)
    (data : List (String × Value)) (fi : FieldInfo)
    (hfind : M.fields.find? (fun p => p.1 == field_name) = some (field_name, fi))
    (hval : pyNoneOrEmpty ((dictGet data field_name).getD .vNone) = false)
    (hcross : ((M.validateModel (buildValidationData M today data)).getD []).all
        (fun e => !(e.loc.head? == some field_name)) = true)
    (hfail : (M.validateModel data).isSome = true) :
    (validateField M today field_name data).is_valid = true ∧
    (validateAndParse M today data).1 = none := by
  constructor
  · rcases hv : M.validateModel (buildValidationData M today data) with _ | es
    · simp [validateField, hfind, hval, hv]
    · rw [hv] at hcross
      have hfindnone : es.find? (fun e => e.loc.head? == some field_name) = none := by
        rw [List.find?_eq_none]
        intro e he hpe
        have h2 := List.all_eq_true.mp hcross e he
        rw [hpe] at h2
        simp at h2
      simp [validateField, hfind, hval, hv, hfindnone]
  · rcases Option.isSome_iff_exists.mp hfail with ⟨es, hes⟩
    cases hall : (validateAll M today data).all (fun r => r.2.is_valid)
    · simp [validateAndParse, hall]
    · simp [validateAndParse, hall, hes]

/-- Witness for C1, the spec's Scenario E: mismatched passwords leave
per-field validation of `password` valid, while `validate_and_parse`
on the same data yields no model. -/
theorem claim_C1_witness :
    (validateField pwModel today0 "password" pwData).is_valid = true ∧
    (validateAndParse pwModel today0 pwData).1 = none :=
  claim_C1 pwModel today0 "password" pwData fiStr rfl (by decide) (by decide) (by decide)

/-- Claim C3 (amended): for a model field resolving to the boolean
checkbox kind, absence converts to `False`, a submitted boolean passes
through, and a submitted NON-EMPTY string converts to `True` exactly
when its lower-casing is a truthy token (an empty string instead takes
the empty-value path: `None` when optional, unchanged when required). -/
theorem claim_C3 (mfields : List (String × FieldInfo)) (form : List (String × Value))
    (fname : String) (fi : FieldInfo)
    (hnodup : (mfields.map Prod.fst).Nodup)
    (hmem : (fname, fi) ∈ mfields)
    (hkind : detectFieldType fi.annot = .CHECKBOX) :
    (dictGet form fname = none →
      dictGet (convertFormData (fieldsDict mfields) form) fname = some (.vBool false)) ∧
    (∀ b : Bool, dictGet form fname = some (.vBool b) →
      dictGet (convertFormData (fieldsDict mfields) form) fname = some (.vBool b)) ∧
    (∀ s : String, dictGet form fname = some (.vStr s) → s ≠ "" →
      dictGet (convertFormData (fieldsDict mfields) form) fname
        = some (.vBool (truthyTokens.contains (pyLower s)))) := by
  have hnd : ((fieldsDict mfields).map Prod.fst).Nodup := by
    rwa [fieldsDict_keys]
  have hMaster := dictGet_convertFormData form hnd (mem_fieldsDict hmem)
  have hft : (parseField fname fi).field_type = .CHECKBOX := by
    rw [parseField_field_type, hkind]
  refine ⟨fun habs => ?_, fun b hb => ?_, fun s hs hne => ?_⟩
  · rw [hMaster, habs]
    simp [hft]
  · rw [hMaster, hb]
    simp [convertValue, pyNoneOrEmpty, hft]
  · rw [hMaster, hs]
    simp [convertValue, pyNoneOrEmpty, hne, hft]

/-- Counterexample to C3 as stated: on the optional boolean field, a
present EMPTY string converts to `None`, not to the `False` that the
lowercased-token rule would dictate. -/
theorem claim_C3_counterexample :
    dictGet (convertFormData (fieldsDict [("newsletter", fiNewsletter)])
        [("newsletter", .vStr "")]) "newsletter" = some .vNone ∧
    dictGet (convertFormData (fieldsDict [("newsletter", fiNewsletter)])
        [("newsletter", .vStr "")]) "newsletter"
      ≠ some (.vBool (truthyTokens.contains (pyLower ""))) := by
  decide

/-- Witness for C3: the absent optional boolean field converts to
`False`. -/
theorem claim_C3_witness :
    ([("newsletter", fiNewsletter)].map Prod.fst).Nodup ∧
    detectFieldType fiNewsletter.annot = .CHECKBOX ∧
    dictGet (convertFormData (fieldsDict [("newsletter", fiNewsletter)]) []) "newsletter"
      = some (.vBool false) := by
  refine ⟨by simp, by decide, ?_⟩
  exact (claim_C3 [("newsletter", fiNewsletter)] [] "newsletter" fiNewsletter
    (by simp) (List.mem_singleton.mpr rfl) (by decide)).1 rfl

/-- Claim C6: a field absent from the submitted data whose kind is not
the boolean checkbox kind is omitted from the converter's output; a
present empty-string or `None` value converts to `None` when the field
is not required and passes through unchanged when it is required. -/
theorem claim_C6 (mfields : List (String × FieldInfo)) (form : List (String × Value))
    (fname : String) (fi : FieldInfo)
    (hnodup : (mfields.map Prod.fst).Nodup)
    (hmem : (fname, fi) ∈ mfields) :
    (dictGet form fname = none →
      (parseField fname fi).field_type ≠ .CHECKBOX →
      (parseField fname fi).field_type ≠ .BOOLEAN →
      dictGet (convertFormData (fieldsDict mfields) form) fname = none) ∧
    (∀ v : Value, dictGet form fname = some v → pyNoneOrEmpty v = true →
      ((parseField fname fi).required = false →
        dictGet (convertFormData (fieldsDict mfields) form) fname = some .vNone) ∧
      ((parseField fname fi).required = true →
        dictGet (convertFormData (fieldsDict mfields) form) fname = some v)) := by
  have hnd : ((fieldsDict mfields).map Prod.fst).Nodup := by
    rwa [fieldsDict_keys]
  have hMaster := dictGet_convertFormData form hnd (mem_fieldsDict hmem)
  refine ⟨fun habs hcb _ => ?_, fun v hv hemp => ⟨fun hreq => ?_, fun hreq => ?_⟩⟩
  · rw [hMaster, habs]
    simp [hcb]
  · rw [hMaster, hv]
    simp [convertValue, hemp, hreq]
  · rw [hMaster, hv]
    simp [convertValue, hemp, hreq]

/-- Witness for C6: the absent required integer field `age` is omitted
from the output. -/
theorem claim_C6_witness :
    ([("age", fiAge)].map Prod.fst).Nodup ∧
    (parseField "age" fiAge).field_type ≠ .CHECKBOX ∧
    dictGet (convertFormData (fieldsDict [("age", fiAge)]) []) "age" = none := by
  refine ⟨by simp, by decide, ?_⟩
  exact (claim_C6 [("age", fiAge)] [] "age" fiAge
    (by simp) (List.mem_singleton.mpr rfl)).1 rfl (by decide) (by decide)

/-- Claim C9: the field-kind resolver is deterministic (it is a pure
function of its input) and idempotent: on every supported type
expression, resolving the canonical (fully unwrapped) type yields the
same kind as resolving the wrapped form, and canonicalization is a
projection. -/
theorem claim_C9 (a : Ann) (h : isSupportedAnn a = true) :
    detectFieldType (canonicalType a) = detectFieldType a ∧
    canonicalType (canonicalType a) = canonicalType a := by
  obtain ⟨hA, hU⟩ := canonicalType_stable h
  constructor
  · show finalClassify (unwrapUnion (unwrapAnnotated (canonicalType a))) = detectFieldType a
    rw [hA, hU]
    rfl
  · show unwrapUnion (unwrapAnnotated (canonicalType a)) = canonicalType a
    rw [hA, hU]

/-- Witness for C9: the optional annotated integer type resolves to the
same kind as its canonical form. -/
theorem claim_C9_witness :
    isSupportedAnn (.annotated (.union [.int, .noneType])) = true ∧
    (detectFieldType (canonicalType (.annotated (.union [.int, .noneType])))
        = detectFieldType (.annotated (.union [.int, .noneType])) ∧
      canonicalType (canonicalType (.annotated (.union [.int, .noneType])))
        = canonicalType (.annotated (.union [.int, .noneType]))) :=
  ⟨by decide, claim_C9 (.annotated (.union [.int, .noneType])) (by decide)⟩

/-- Claim C2: for every field descriptor and every submitted raw value
that is present and non-empty, the converter on an `INTEGER` (likewise
`FLOAT`, `DATE`) field returns the parsed native value when parsing
succeeds and the raw value unchanged on parse failure; being a total
function, the embedded converter never raises. -/
theorem claim_C2 (pf : ParsedField) (v : Value) (h : pyNoneOrEmpty v = false) :
    (pf.field_type = .INTEGER →
      convertValue v pf = (match pyInt v with | some n => Value.vInt n | none => v)) ∧
    (pf.field_type = .FLOAT →
      convertValue v pf = (match pyFloat v with | some q => Value.vFloat q | none => v)) ∧
    (pf.field_type = .DATE →
      convertValue v pf = (match pyDateParse v with | some d => Value.vDate d | none => v)) := by
  refine ⟨fun hft => ?_, fun hft => ?_, fun hft => ?_⟩
  · cases hv : pyInt v <;> simp [convertValue, h, hft, hv]
  · cases hv : pyFloat v <;> simp [convertValue, h, hft, hv]
  · cases v with
    | vStr s => cases hd : dateFromIsoformat s <;> simp [convertValue, pyDateParse, h, hft, hd]
    | _ => simp [convertValue, pyDateParse, h, hft]

/-- Witness for C2: the integer field `age` with submitted value
`"25"` parses to the native integer 25. -/
theorem claim_C2_witness :
    pyNoneOrEmpty (.vStr "25") = false ∧
    convertValue (.vStr "25") (parseField "age" fiAge) = .vInt 25 := by
  refine ⟨by decide, ?_⟩
  have h := (claim_C2 (parseField "age" fiAge) (.vStr "25") (by decide)).1 rfl
  rw [h, show pyInt (.vStr "25") = some 25 from by decide]

/-- Claim C4 (amended): the introspector's `required` flag equals the
engine's `is_required()`, which is true iff the field declares no
default; nullability of the annotation plays no role. -/
theorem claim_C4 (name : String) (fi : FieldInfo) :
    (parseField name fi).required = fi.default.isNone := rfl

/-- Counterexample to C4 as stated: `nickname: str | None` with no
default is nullable yet required, so `required` differs from
"no default AND not nullable". -/
theorem claim_C4_counterexample :
    ¬ ((parseField "nickname" fiNickname).required
        = (fiNickname.default.isNone && !isNullable fiNickname.annot)) := by
  decide

/-- Claim C5, the code evaluated at a failing input:
`generate_error_response` interpolates the field name and the error
message into the `<li>` entries without any escaping, so a `<` in
either survives into the produced HTML, where the required escaping
would have produced `&lt;`. -/
theorem claim_C5_bug :
    generateErrorResponse [("<b>", ⟨false, some "x<y"⟩)]
      = "<div class=\"errors\"><ul><li><b>: x<y</li></ul></div>" ∧
    escapeHtml "<b>" = "&lt;b&gt;" ∧ escapeHtml "x<y" = "x&lt;y" := by
  decide

/-- Claim C7: a field whose type is a `Literal` enumeration resolves to
kind `SELECT`, and its option list has exactly one option per literal,
in declaration order, each with value and label equal to the
stringified literal. -/
theorem claim_C7 (name : String) (fi : FieldInfo) (vals : List Lit)
    (h : fi.annot = .lit vals) :
    (parseField name fi).field_type = .SELECT ∧
    (parseField name fi).options =
      vals.map (fun v => SelectOption.mk (litStr v) (litStr v)) ∧
    (parseField name fi).options.length = vals.length := by
  refine ⟨?_, ?_, ?_⟩
  · rw [parseField_field_type, h]; rfl
  · show extractOptions fi.annot = _
    rw [h]
    simp [extractOptions, unwrapAnnotated, SelectOption.make]
  · show (extractOptions fi.annot).length = _
    rw [h]
    simp [extractOptions, unwrapAnnotated]

/-- Witness for C7: the Scenario D field with three literals yields
`SELECT` and exactly its three `value == label` options. -/
theorem claim_C7_witness :
    (parseField "status" fiStatus).field_type = .SELECT ∧
    (parseField "status" fiStatus).options =
      [⟨"active", "active"⟩, ⟨"inactive", "inactive"⟩, ⟨"pending", "pending"⟩] := by
  have h := claim_C7 "status" fiStatus statusLits rfl
  exact ⟨h.1, by rw [h.2.1]; rfl⟩

/-- Claim C8: a field name not declared in the model's schema makes
`validate_field` return an invalid outcome carrying the distinct
unknown-field message; the embedded function is total, so no exception
escapes. -/
theorem claim_C8 (M : PyModel) (today : PyDate) (field_name : String)
    (data : List (String × Value)) (h : field_name ∉ M.fields.map Prod.fst) :
    validateField M today field_name data
      = ⟨false, some ("不明なフィールド: " ++ field_name)⟩ := by
  simp [validateField, find?_key_eq_none h]

/-- Witness for C8: the one-field model knows no field `nope`. -/
theorem claim_C8_witness :
    "nope" ∉ mUser.fields.map Prod.fst ∧
    validateField mUser today0 "nope" [] = ⟨false, some "不明なフィールド: nope"⟩ := by
  refine ⟨by decide, ?_⟩
  rw [claim_C8 mUser today0 "nope" [] (by decide)]
  rfl

/-- Claim C10: every key of the converter's output is a declared field
name of the model; submitted entries with undeclared keys never appear
in the converted mapping. -/
theorem claim_C10 (mfields : List (String × FieldInfo)) (form : List (String × Value))
    (k : String) (h : k ∈ (convertFormData (fieldsDict mfields) form).map Prod.fst) :
    k ∈ mfields.map Prod.fst := by
  have hk := convertFormData_keys_mem h
  rwa [fieldsDict_keys] at hk

/-- Witness for C10: the one-field model keeps its declared key. -/
theorem claim_C10_witness :
    "age" ∈ (convertFormData (fieldsDict [("age", fiAge)]) [("age", .vStr "25")]).map Prod.fst ∧
    "age" ∈ ([("age", fiAge)].map Prod.fst) :=
  ⟨by decide, claim_C10 [("age", fiAge)] [("age", .vStr "25")] "age" (by decide)⟩

end PydanticHtmx
